import Mathlib

/-!
Verification of the Fortune sweep-line Voronoi implementation
(`voronoi.hh` / `voronoi.cpp`).

The C++ core is shallowly embedded over exact rationals (`ℚ` stands in for
`double`; the numerical claims under scrutiny are about branch structure and
exact comparisons, which the source performs with `==`, `<=`, `>` on doubles).
`std::sqrt` / `std::hypot` are external library calls, so every definition
that needs them is parametrised by a square-root function `sq : ℚ → ℚ`;
`hypot dx dy` is modelled as `sq (dx*dx + dy*dy)`.

Shared mutable objects (`shared_ptr<Segment>`, `shared_ptr<Event>`, the
doubly linked arc chain) are modelled with append-only stores addressed by
index and a list for the beachline; an arc carries a stable numeric id so
that events can keep their back reference across beachline mutation, the way
the C++ `Event::arc` pointer does.
-/

namespace VoronoiModel

/-- `Point` from voronoi.hh lines 11-24 (coordinates only; `==` is field
equality, as in the source). -/
structure Point where
  x : ℚ
  y : ℚ
deriving DecidableEq, Repr

/-- `Segment` from voronoi.hh lines 26-39.  The C++ field `end` is called
`stop` here because `end` is a Lean keyword; it is default-initialised to
`Point()` = (0,0) by the constructor `Segment(p)`. -/
structure Segment where
  start : Point
  stop : Point
  done : Bool
deriving DecidableEq, Repr

/-- `Segment::Segment(p)`: start = p, end = Point(), done = false. -/
def Segment.mkOpen (p : Point) : Segment :=
  { start := p, stop := ⟨0, 0⟩, done := false }

/-- `Segment::finish` from voronoi.hh lines 33-38:
`if (!done) { end = p; done = true; }`. -/
def Segment.finish (s : Segment) (p : Point) : Segment :=
  if s.done then s else { start := s.start, stop := p, done := true }

/-- The cross product tested at voronoi.cpp line 205:
`(b.x - a.x) * (c.y - a.y) - (c.x - a.x) * (b.y - a.y)`.
The source rejects the triple when this is `> 0` (then `b → c` is not a
clockwise/right turn from `a → b`; a right turn has this quantity `< 0`). -/
def crossB (a b c : Point) : ℚ :=
  (b.x - a.x) * (c.y - a.y) - (c.x - a.x) * (b.y - a.y)

/-- The circumcenter-solution denominator `G` from voronoi.cpp line 216:
`G = 2 * (A * (c.y - b.y) - B * (c.x - b.x))` with `A = b.x - a.x`,
`B = b.y - a.y`. -/
def circleG (a b c : Point) : ℚ :=
  2 * ((b.x - a.x) * (c.y - b.y) - (b.y - a.y) * (c.x - b.x))

/-- `FortuneAlgorithm::circle` from voronoi.cpp lines 203-227.
Returns `none` where the C++ returns `false`, and `some (x, o)` for the
out-parameters `*x` (trigger sweep coordinate) and `*o` (circumcenter).
`std::hypot(a.x - o.x, a.y - o.y)` is modelled as `sq` of the sum of
squares. -/
def circle (sq : ℚ → ℚ) (a b c : Point) : Option (ℚ × Point) :=
  if crossB a b c > 0 then none
  else
    let A := b.x - a.x
    let B := b.y - a.y
    let C := c.x - a.x
    let D := c.y - a.y
    let E := A * (a.x + b.x) + B * (a.y + b.y)
    let F := C * (a.x + c.x) + D * (a.y + c.y)
    if circleG a b c = 0 then none
    else
      let ox := (D * E - B * F) / circleG a b c
      let oy := (A * F - C * E) / circleG a b c
      some (ox + sq ((a.x - ox) * (a.x - ox) + (a.y - oy) * (a.y - oy)), ⟨ox, oy⟩)

/-- `FortuneAlgorithm::intersection` from voronoi.cpp lines 250-276: the
breakpoint of the parabolas with foci `p0`, `p1` and directrix `x = l`.
The C++ picks a focus `p` (`p0`, except in the `p0.x == l` branch where it
is `p1`) and substitutes the computed `res.y` back into that parabola's
equation; here the substitution is written out in each branch with the
branch's focus. -/
def intersection (sq : ℚ → ℚ) (p0 p1 : Point) (l : ℚ) : Point :=
  if p0.x = p1.x then
    let ry := (p0.y + p1.y) / 2
    ⟨(p0.x * p0.x + (p0.y - ry) * (p0.y - ry) - l * l) / (2 * p0.x - 2 * l), ry⟩
  else if p1.x = l then
    let ry := p1.y
    ⟨(p0.x * p0.x + (p0.y - ry) * (p0.y - ry) - l * l) / (2 * p0.x - 2 * l), ry⟩
  else if p0.x = l then
    let ry := p0.y
    ⟨(p1.x * p1.x + (p1.y - ry) * (p1.y - ry) - l * l) / (2 * p1.x - 2 * l), ry⟩
  else
    let z0 := 2 * (p0.x - l)
    let z1 := 2 * (p1.x - l)
    let a := 1 / z0 - 1 / z1
    let b := -2 * (p0.y / z0 - p1.y / z1)
    let c := (p0.y * p0.y + p0.x * p0.x - l * l) / z0
           - (p1.y * p1.y + p1.x * p1.x - l * l) / z1
    let ry := (-b - sq (b * b - 4 * a * c)) / (2 * a)
    ⟨(p0.x * p0.x + (p0.y - ry) * (p0.y - ry) - l * l) / (2 * p0.x - 2 * l), ry⟩

/-- Every denominator `intersection` divides by, branch by branch:
the final back-substitution denominator `2*p.x - 2*l` (with `p` the focus
the branch chooses), and in the general branch additionally `z0`, `z1` and
the quadratic's `2*a`.  `true` means the evaluation of `intersection` on
this input performs a division by zero. -/
def interDivZero (p0 p1 : Point) (l : ℚ) : Bool :=
  if p0.x = p1.x then decide (2 * p0.x - 2 * l = 0)
  else if p1.x = l then decide (2 * p0.x - 2 * l = 0)
  else if p0.x = l then decide (2 * p1.x - 2 * l = 0)
  else
    decide (2 * (p0.x - l) = 0 ∨ 2 * (p1.x - l) = 0 ∨
      2 * (1 / (2 * (p0.x - l)) - 1 / (2 * (p1.x - l))) = 0 ∨
      2 * p0.x - 2 * l = 0)

/-- `FortuneAlgorithm::intersect` from voronoi.cpp lines 229-248, with the
arc's neighbour sites passed explicitly (`i->prev->p` / `i->next->p`; `none`
models a null neighbour pointer).  Returns `none` for `false`, and the
out-parameter `*res` for `true`. -/
def intersect (sq : ℚ → ℚ) (p : Point) (prevSite : Option Point)
    (site : Point) (nextSite : Option Point) : Option Point :=
  if site.x = p.x then none
  else
    let a : ℚ := match prevSite with
      | some pp => (intersection sq pp site p.x).y
      | none => 0
    let b : ℚ := match nextSite with
      | some nn => (intersection sq site nn p.x).y
      | none => 0
    if (prevSite = none ∨ a ≤ p.y) ∧ (nextSite = none ∨ p.y ≤ b) then
      some ⟨(site.x * site.x + (site.y - p.y) * (site.y - p.y) - p.x * p.x) /
            (2 * site.x - 2 * p.x), p.y⟩
    else none

/-- `EventComparator` from voronoi.hh lines 102-106: orders events by
trigger x (`a->x > b->x`, the greater-form used by a min-heap).  The source
declares it inside `FortuneAlgorithm` but never uses it as a queue's
comparator. -/
def EventComparator (ax bx : ℚ) : Bool := decide (ax > bx)

/-- The comparator the `events` member at voronoi.hh line 85 actually
instantiates: `std::greater<>` at `EventPtr = std::shared_ptr<Event>`
compares the stored pointer values, not any field of the `Event`.  A queued
event is modelled as `(address, trigger x)`. -/
def sharedPtrGreater (a b : Nat × ℚ) : Bool := decide (a.1 > b.1)

/-- `top()` of a `std::priority_queue` whose comparator is a greater-form
relation: a minimal element of the queue under that relation. -/
def queueTop {α : Type} (gtc : α → α → Bool) : List α → Option α
  | [] => none
  | e :: rest => some (rest.foldl (fun m f => if gtc m f then f else m) e)

/-- `Event` from voronoi.hh lines 61-70: trigger coordinate `x`,
circumcenter `p`, back reference `arc` (here the arc's stable id) and the
lazy-invalidation flag `valid` (initialised `true`). -/
structure Event where
  x : ℚ
  p : Point
  arc : Nat
  valid : Bool
deriving DecidableEq, Repr

/-- `Arc` from voronoi.hh lines 48-59.  In the model the beachline is the
list of arcs in `prev`/`next` order starting at `root`, so the two link
pointers are the list's adjacency; `id` is a stable identifier standing in
for the arc's address (events hold it as their back reference).  `event`,
`ls` and `rs` are indices into the event and segment stores (`none` models a
null pointer; `ls`/`rs` are `left_segment`/`right_segment`). -/
structure Arc where
  id : Nat
  site : Point
  event : Option Nat
  ls : Option Nat
  rs : Option Nat
deriving DecidableEq, Repr

/-- The private state of `FortuneAlgorithm` (voronoi.hh lines 82-88).
`store` holds every event ever allocated (index = address stand-in, in
allocation order) and `queue` the indices still inside the priority queue;
`segs` is `output_segments`, which owns every segment ever created (shared
`shared_ptr<Segment>`s are indices into it).  `points` is the site queue as
the sequence it will be popped in. -/
structure St where
  beach : List Arc
  store : List Event
  queue : List Nat
  points : List Point
  segs : List Segment
  xmin : ℚ
  xmax : ℚ
  ymin : ℚ
  ymax : ℚ
  nextArcId : Nat
deriving DecidableEq, Repr

/-- `i->prev->p` for the arc at position `k` of the beachline (`none` models
the null `prev` of the first arc). -/
def prevSiteAt (beach : List Arc) (k : Nat) : Option Point :=
  if k = 0 then none else (beach.get? (k - 1)).map fun a => a.site

/-- `i->next->p` for the arc at position `k` of the beachline. -/
def nextSiteAt (beach : List Arc) (k : Nat) : Option Point :=
  (beach.get? (k + 1)).map fun a => a.site

/-- `intersect(p, i)` for the arc at position `k` of the beachline. -/
def intersectAt (sq : ℚ → ℚ) (beach : List Arc) (p : Point) (k : Nat) :
    Option Point :=
  match beach.get? k with
  | none => none
  | some a => intersect sq p (prevSiteAt beach k) a.site (nextSiteAt beach k)

/-- The event's trigger coordinate read through its queue index
(`events.top()->x`). -/
def evX (st : St) (eid : Nat) : ℚ :=
  match st.store.get? eid with
  | some e => e.x
  | none => 0

/-- The invalidation prologue of `check_circle_event` (voronoi.cpp lines
182-184): `if (i->event && i->event->x != x0) i->event->valid = false;`. -/
def invalidateOld (store : List Event) (oe : Option Nat) (x0 : ℚ) :
    List Event :=
  match oe with
  | none => store
  | some eid =>
    match store.get? eid with
    | none => store
    | some e => if e.x ≠ x0 then store.set eid { e with valid := false } else store

/-- `FortuneAlgorithm::check_circle_event` from voronoi.cpp lines 180-201,
acting on the arc at position `k` of the beachline.  Returns the mutated
state and the C++ boolean result.  The new event is allocated at the end of
`store` and pushed on `queue`. -/
def check_circle_event (sq : ℚ → ℚ) (st : St) (k : Nat) (x0 : ℚ) :
    St × Bool :=
  match st.beach.get? k with
  | none => (st, false)
  | some arc =>
    let store1 := invalidateOld st.store arc.event x0
    let beach1 := st.beach.set k { arc with event := none }
    let st1 := { st with store := store1, beach := beach1 }
    match prevSiteAt st.beach k, nextSiteAt st.beach k with
    | some a, some c =>
      match circle sq a arc.site c with
      | some (x, o) =>
        if x > x0 then
          let eid := store1.length
          ({ st1 with
              beach := beach1.set k { arc with event := some eid },
              store := store1 ++ [⟨x, o, arc.id, true⟩],
              queue := st.queue ++ [eid] }, true)
        else (st1, false)
      | none => (st1, false)
    | _, _ => (st1, false)

/-- The search loop of `front_insert` (voronoi.cpp line 133): the position
of the first arc `i` (walking from `root`) for which `intersect(p, i)`
succeeds. -/
def firstHit (sq : ℚ → ℚ) (beach : List Arc) (p : Point) : Option Nat :=
  (List.range beach.length).find? fun k => (intersectAt sq beach p k).isSome

/-- `FortuneAlgorithm::front_insert` from voronoi.cpp lines 126-178.
On the split path (first hit at `k`), the C++ duplicates arc `i`'s site
into a fresh arc placed after the new arc for `p`; when `i` has a next arc
that `p` also intersects, that next and everything after it is dropped from
the chain (`i->next = new Arc(i->p, i)` forgets the old tail).  Allocation
order (dup before the arc for `p`) fixes the two fresh ids, and the two new
segments both start at the first intersection point `z`. -/
def front_insert (sq : ℚ → ℚ) (st : St) (p : Point) : St :=
  match st.beach with
  | [] => { st with
      beach := [⟨st.nextArcId, p, none, none, none⟩],
      nextArcId := st.nextArcId + 1 }
  | _ =>
    match firstHit sq st.beach p with
    | some k =>
      let arc := (st.beach.get? k).getD ⟨0, p, none, none, none⟩
      let z := (intersectAt sq st.beach p k).getD ⟨0, 0⟩
      let keepTail : Bool :=
        decide (k + 1 < st.beach.length) && (intersectAt sq st.beach p (k + 1)).isNone
      let sid1 := st.segs.length
      let sid2 := st.segs.length + 1
      let dup : Arc := ⟨st.nextArcId, arc.site, none, some sid2, arc.rs⟩
      let parc : Arc := ⟨st.nextArcId + 1, p, none, some sid1, some sid2⟩
      let iNew : Arc := { arc with rs := some sid1 }
      let suffix := if keepTail then st.beach.drop (k + 1) else []
      let st2 : St := { st with
          beach := st.beach.take k ++ [iNew, parc, dup] ++ suffix,
          segs := st.segs ++ [Segment.mkOpen z, Segment.mkOpen z],
          nextArcId := st.nextArcId + 2 }
      let st3 := (check_circle_event sq st2 (k + 1) p.x).1
      let st4 := (check_circle_event sq st3 k p.x).1
      (check_circle_event sq st4 (k + 2) p.x).1
    | none =>
      match st.beach.getLast? with
      | none => st
      | some lastArc =>
        let sid := st.segs.length
        let seg : Segment := Segment.mkOpen ⟨st.xmin, (p.y + lastArc.site.y) / 2⟩
        { st with
            beach := st.beach.dropLast ++
              [{ lastArc with rs := some sid }, ⟨st.nextArcId, p, none, some sid, none⟩],
            segs := st.segs ++ [seg],
            nextArcId := st.nextArcId + 1 }

/-- `FortuneAlgorithm::process_point` from voronoi.cpp lines 90-94. -/
def process_point (sq : ℚ → ℚ) (st : St) : St :=
  match st.points with
  | [] => st
  | p :: ps => front_insert sq { st with points := ps } p

/-- `segs[sid].finish p` for an optional segment reference. -/
def finishSeg (segs : List Segment) (sid : Option Nat) (p : Point) :
    List Segment :=
  match sid with
  | none => segs
  | some i =>
    match segs.get? i with
    | none => segs
    | some s => segs.set i (s.finish p)

/-- Set the `right_segment` of the arc at position `j`. -/
def setRS (beach : List Arc) (j : Nat) (sid : Nat) : List Arc :=
  match beach.get? j with
  | some b => beach.set j { b with rs := some sid }
  | none => beach

/-- Set the `left_segment` of the arc at position `j`. -/
def setLS (beach : List Arc) (j : Nat) (sid : Nat) : List Arc :=
  match beach.get? j with
  | some b => beach.set j { b with ls := some sid }
  | none => beach

/-- `FortuneAlgorithm::process_event` from voronoi.cpp lines 96-124: pop
the top event; if valid, create a segment rooted at its circumcenter,
unlink its arc (relinking the neighbours and handing each its new
boundary segment), finish the removed arc's own two boundary segments at
the event point, and re-check circle events for the two now-adjacent
neighbours at the event's x.  Returns `none` only where the C++ would chase
the pointers of an arc that is no longer linked from `root` (an event whose
arc the beachline no longer contains) — a path none of the verified claims
exercises. -/
def process_event (sq : ℚ → ℚ) (st : St) : Option St :=
  match st.queue with
  | [] => some st
  | eid :: rest =>
    match st.store.get? eid with
    | none => none
    | some e =>
      let st1 := { st with queue := rest }
      if e.valid then
        match st1.beach.findIdx? (fun a => a.id = e.arc) with
        | none => none
        | some j =>
          match st1.beach.get? j with
          | none => none
          | some a =>
            let sid := st1.segs.length
            let segs1 := st1.segs ++ [Segment.mkOpen e.p]
            let hadNext := j + 1 < st1.beach.length
            let beach1 := if 0 < j then setRS st1.beach (j - 1) sid else st1.beach
            let beach2 := if hadNext then setLS beach1 (j + 1) sid else beach1
            let beach3 := beach2.eraseIdx j
            let segs2 := finishSeg (finishSeg segs1 a.ls e.p) a.rs e.p
            let st2 := { st1 with beach := beach3, segs := segs2 }
            let st3 := if 0 < j then (check_circle_event sq st2 (j - 1) e.x).1 else st2
            let st4 := if hadNext then (check_circle_event sq st3 j e.x).1 else st3
            some st4
      else some st1

/-- The dispatch condition of `compute`'s main loop (voronoi.cpp line 32):
`!events.empty() && events.top()->x <= points.top().x`. -/
def eventFirst (st : St) : Bool :=
  match st.queue, st.points with
  | eid :: _, p :: _ => decide (evX st eid ≤ p.x)
  | _, _ => false

/-- The main loop of `compute` (voronoi.cpp lines 31-37), fuel-bounded. -/
def loop1 (sq : ℚ → ℚ) : Nat → St → Option St
  | 0, _ => none
  | fuel + 1, st =>
    if st.points = [] then some st
    else if eventFirst st then
      match process_event sq st with
      | none => none
      | some st2 => loop1 sq fuel st2
    else loop1 sq fuel (process_point sq st)

/-- The drain loop of `compute` (voronoi.cpp lines 40-42), fuel-bounded. -/
def loop2 (sq : ℚ → ℚ) : Nat → St → Option St
  | 0, _ => none
  | fuel + 1, st =>
    if st.queue = [] then some st
    else
      match process_event sq st with
      | none => none
      | some st2 => loop2 sq fuel st2

/-- The traversal of `finish_edges` (voronoi.cpp lines 283-287) over the
remaining beachline, finishing each arc's `right_segment` at the breakpoint
with its successor evaluated at directrix `l * 2`. -/
def finishLoop (sq : ℚ → ℚ) (l2 : ℚ) (segs : List Segment) :
    List Arc → List Segment
  | [] => segs
  | [_] => segs
  | a :: b :: rest =>
    let segs1 := match a.rs with
      | some sid => finishSeg segs (some sid) (intersection sq a.site b.site l2)
      | none => segs
    finishLoop sq l2 segs1 (b :: rest)

/-- `FortuneAlgorithm::finish_edges` from voronoi.cpp lines 278-288.  The
C++ loop header `for (ArcPtr i = root; i->next != nullptr; i = i->next)`
evaluates `i->next` unconditionally, so with an empty beachline (`root ==
nullptr`) it dereferences a null pointer: this crash is `none`. -/
def finish_edges (sq : ℚ → ℚ) (st : St) : Option St :=
  match st.beach with
  | [] => none
  | a :: rest =>
    let l := st.xmax + (st.xmax - st.xmin) + (st.ymax - st.ymin)
    some { st with segs := finishLoop sq (l * 2) st.segs (a :: rest) }

/-- Lexicographic (x, y) comparison of sites.

Modelled from the spec: the site queue declared at voronoi.hh line 84
(`std::priority_queue<Point, std::vector<Point>, std::greater<>>`) needs a
`Point::operator>` that no source file defines, so the comparison it would
use is absent from src/; the ascending x, ties by y, order is taken from
the spec's words. -/
def ptLe (p q : Point) : Bool :=
  if p.x < q.x then true
  else if p.x = q.x then decide (p.y ≤ q.y)
  else false

/-- Insertion into a `ptLe`-sorted list. -/
def insSorted (p : Point) : List Point → List Point
  | [] => [p]
  | q :: r => if ptLe p q then p :: q :: r else q :: insSorted p r

/-- The site queue's contents in pop order. -/
def sortSites (sites : List Point) : List Point :=
  sites.foldr insSorted []

/-- The state after the `add_point` calls (voronoi.cpp lines 8-21): the
bounding box folds min/max over the sites, the first site initialising all
four bounds. -/
def initSt (sites : List Point) : St :=
  let bb : ℚ × ℚ × ℚ × ℚ :=
    match sites with
    | [] => (0, 0, 0, 0)
    | p :: rest =>
      rest.foldl
        (fun acc q => (min acc.1 q.x, min acc.2.1 q.y, max acc.2.2.1 q.x,
          max acc.2.2.2 q.y))
        (p.x, p.y, p.x, p.y)
  { beach := [], store := [], queue := [], points := sortSites sites,
    segs := [], xmin := bb.1, ymin := bb.2.1, xmax := bb.2.2.1,
    ymax := bb.2.2.2, nextArcId := 0 }

/-- The bounding-box margins added at the start of `compute` (voronoi.cpp
lines 25-28). -/
def applyMargins (st : St) : St :=
  let dx := (st.xmax - st.xmin + 1) / 5
  let dy := (st.ymax - st.ymin + 1) / 5
  { st with xmin := st.xmin - dx, xmax := st.xmax + dx,
            ymin := st.ymin - dy, ymax := st.ymax + dy }

/-- `FortuneAlgorithm::compute` followed by `get_segments` (voronoi.cpp
lines 23-49) on a fresh instance fed `sites` through `add_point`.  Each
main-loop iteration pops a site or an event, and at most `3 + 2` circle
events arise per pop, so `20 * n + 20` fuel never runs out for a run that
the C++ finishes; `none` is a crash (or fuel exhaustion). -/
def computeRun (sq : ℚ → ℚ) (sites : List Point) : Option (List Segment) :=
  let st0 := applyMargins (initSt sites)
  let fuel := 20 * sites.length + 20
  match loop1 sq fuel st0 with
  | none => none
  | some st1 =>
    match loop2 sq fuel st1 with
    | none => none
    | some st2 =>
      match finish_edges sq st2 with
      | none => none
      | some st3 => some st3.segs

/-! ## Theorems -/

/-- C8.  `Segment::finish` is idempotent: once a first `finish p` has set
`done`, a second `finish q` changes neither the endpoint nor the flag. -/
theorem segment_finish_idempotent (s : Segment) (p q : Point)
    (h : (s.finish p).done = true) :
    ((s.finish p).finish q).stop = (s.finish p).stop ∧
    ((s.finish p).finish q).done = (s.finish p).done := by
  by_cases hd : s.done <;> simp [Segment.finish, hd]

theorem segment_finish_idempotent_w :
    (((Segment.mkOpen ⟨1, 2⟩).finish ⟨3, 4⟩).finish ⟨5, 6⟩).stop =
      ((Segment.mkOpen ⟨1, 2⟩).finish ⟨3, 4⟩).stop ∧
    (((Segment.mkOpen ⟨1, 2⟩).finish ⟨3, 4⟩).finish ⟨5, 6⟩).done =
      ((Segment.mkOpen ⟨1, 2⟩).finish ⟨3, 4⟩).done :=
  segment_finish_idempotent (Segment.mkOpen ⟨1, 2⟩) ⟨3, 4⟩ ⟨5, 6⟩ rfl

/-- The denominator `G` of the circumcenter solution is twice the cross
product the right-turn test uses, so `G = 0` singles out exactly the
collinear triples among those that pass the right-turn test. -/
theorem circleG_eq_two_crossB (a b c : Point) :
    circleG a b c = 2 * crossB a b c := by
  unfold circleG crossB; ring

/-- C10.  `intersect` returns false whenever the arc's site has the same
x-coordinate as `p` (voronoi.cpp line 230), so when it does produce a point
the back-substitution denominator `2*i->p.x - 2*p.x` is nonzero. -/
theorem intersect_equal_x_guard (sq : ℚ → ℚ) (p : Point)
    (ps ns : Option Point) (site : Point) :
    (site.x = p.x → intersect sq p ps site ns = none) ∧
    (∀ r, intersect sq p ps site ns = some r → 2 * site.x - 2 * p.x ≠ 0) := by
  constructor
  · intro h
    unfold intersect
    rw [if_pos h]
  · intro r h hden
    unfold intersect at h
    by_cases hx : site.x = p.x
    · rw [if_pos hx] at h
      cases h
    · exact hx (by linarith)

theorem intersect_equal_x_guard_w :
    intersect (fun q => q) ⟨0, 1⟩ none ⟨0, 7⟩ none = none :=
  (intersect_equal_x_guard (fun q => q) ⟨0, 1⟩ none none ⟨0, 7⟩).1 rfl

/-- C4.  `circle` fails exactly when `c` is not a clockwise/right turn from
`a → b` (a right turn being `crossB < 0`) or the circumcenter denominator
`G` vanishes, and a successful call's trigger coordinate is the
circumcenter's x plus the circumradius (the distance from the circumcenter
to `a`, i.e. `sq` of the squared distance). -/
theorem circle_reject_iff_and_trigger_radius (sq : ℚ → ℚ) (a b c : Point) :
    (circle sq a b c = none ↔ (¬ crossB a b c < 0 ∨ circleG a b c = 0)) ∧
    (∀ x o, circle sq a b c = some (x, o) →
      x = o.x + sq ((a.x - o.x) * (a.x - o.x) + (a.y - o.y) * (a.y - o.y))) := by
  constructor
  · unfold circle
    by_cases h1 : crossB a b c > 0
    · rw [if_pos h1]
      simp only [true_iff]
      exact Or.inl (not_lt.mpr (le_of_lt h1))
    · rw [if_neg h1]
      by_cases h2 : circleG a b c = 0
      · rw [if_pos h2]
        exact ⟨fun _ => Or.inr h2, fun _ => rfl⟩
      · simp only [if_neg h2]
        constructor
        · intro hc
          cases hc
        · intro hor
          rcases hor with hnl | hg
          · have hlt : crossB a b c < 0 := by
              rcases lt_trichotomy (crossB a b c) 0 with h | h | h
              · exact h
              · exact absurd (by rw [circleG_eq_two_crossB, h, mul_zero]) h2
              · exact absurd h h1
            exact absurd hlt hnl
          · exact absurd hg h2
  · intro x o h
    unfold circle at h
    by_cases h1 : crossB a b c > 0
    · rw [if_pos h1] at h
      cases h
    · rw [if_neg h1] at h
      by_cases h2 : circleG a b c = 0
      · rw [if_pos h2] at h
        cases h
      · simp only [if_neg h2, Option.some.injEq, Prod.mk.injEq] at h
        obtain ⟨hx, ho⟩ := h
        subst ho
        exact hx.symm

theorem circle_reject_iff_and_trigger_radius_w :
    circle (fun q => q) ⟨0, 0⟩ ⟨1, 0⟩ ⟨1, 1⟩ = none ∧
    circle (fun q => q) ⟨0, 0⟩ ⟨1, 1⟩ ⟨1, 0⟩ ≠ none := by
  have h1 := (circle_reject_iff_and_trigger_radius (fun q => q)
    ⟨0, 0⟩ ⟨1, 0⟩ ⟨1, 1⟩).1
  have h2 := (circle_reject_iff_and_trigger_radius (fun q => q)
    ⟨0, 0⟩ ⟨1, 1⟩ ⟨1, 0⟩).1
  constructor
  · refine h1.mpr (Or.inl ?_)
    norm_num [crossB]
  · intro hc
    rcases h2.mp hc with hnl | hg
    · exact hnl (by norm_num [crossB])
    · revert hg
      norm_num [circleG]

/-- C6 counterexample.  With both foci on the directrix
(`p0 = (0,0)`, `p1 = (0,2)`, `l = 0`) the equal-x branch of `intersection`
back-substitutes with denominator `2*p0.x - 2*l = 0`: a division by zero. -/
theorem intersection_divzero_cex :
    interDivZero ⟨0, 0⟩ ⟨0, 2⟩ 0 = true := by
  norm_num [interDivZero]

/-- C6 amended.  `intersection` takes the stated branches — equal-x foci
give the midpoint y, a focus on the directrix gives the explicit-branch y,
and the general case takes the quadratic root and back-substitutes — and no
division by zero occurs provided the two foci are not both on the directrix
(when `p0.x = p1.x = l`, the equal-x branch's back-substitution denominator
`2*p0.x - 2*l` is zero). -/
theorem intersection_branches_amended (sq : ℚ → ℚ) (p0 p1 : Point) (l : ℚ) :
    (p0.x = p1.x → (intersection sq p0 p1 l).y = (p0.y + p1.y) / 2) ∧
    (p0.x ≠ p1.x → p1.x = l → (intersection sq p0 p1 l).y = p1.y) ∧
    (p0.x ≠ p1.x → p1.x ≠ l → p0.x = l → (intersection sq p0 p1 l).y = p0.y) ∧
    (p0.x ≠ p1.x → p1.x ≠ l → p0.x ≠ l →
      (intersection sq p0 p1 l).y =
        (-(-2 * (p0.y / (2 * (p0.x - l)) - p1.y / (2 * (p1.x - l)))) -
            sq ((-2 * (p0.y / (2 * (p0.x - l)) - p1.y / (2 * (p1.x - l)))) *
                  (-2 * (p0.y / (2 * (p0.x - l)) - p1.y / (2 * (p1.x - l)))) -
                4 * (1 / (2 * (p0.x - l)) - 1 / (2 * (p1.x - l))) *
                  ((p0.y * p0.y + p0.x * p0.x - l * l) / (2 * (p0.x - l)) -
                   (p1.y * p1.y + p1.x * p1.x - l * l) / (2 * (p1.x - l))))) /
          (2 * (1 / (2 * (p0.x - l)) - 1 / (2 * (p1.x - l)))) ∧
      (intersection sq p0 p1 l).x =
        (p0.x * p0.x + (p0.y - (intersection sq p0 p1 l).y) *
          (p0.y - (intersection sq p0 p1 l).y) - l * l) / (2 * p0.x - 2 * l)) ∧
    (¬(p0.x = l ∧ p1.x = l) → interDivZero p0 p1 l = false) := by
  refine ⟨?_, ?_, ?_, ?_, ?_⟩
  · intro h1
    unfold intersection
    rw [if_pos h1]
  · intro h1 h2
    unfold intersection
    rw [if_neg h1, if_pos h2]
  · intro h1 h2 h3
    unfold intersection
    rw [if_neg h1, if_neg h2, if_pos h3]
  · intro h1 h2 h3
    unfold intersection
    rw [if_neg h1, if_neg h2, if_neg h3]
    exact ⟨rfl, rfl⟩
  · intro hnot
    unfold interDivZero
    by_cases h1 : p0.x = p1.x
    · rw [if_pos h1]
      have hne : p0.x ≠ l := fun hc => hnot ⟨hc, h1 ▸ hc⟩
      simp only [decide_eq_false_iff_not]
      intro hc
      exact hne (by linarith)
    · rw [if_neg h1]
      by_cases h2 : p1.x = l
      · rw [if_pos h2]
        have hne : p0.x ≠ l := fun hc => h1 (hc.trans h2.symm)
        simp only [decide_eq_false_iff_not]
        intro hc
        exact hne (by linarith)
      · rw [if_neg h2]
        by_cases h3 : p0.x = l
        · rw [if_pos h3]
          simp only [decide_eq_false_iff_not]
          intro hc
          exact h2 (by linarith)
        · rw [if_neg h3]
          simp only [decide_eq_false_iff_not]
          push_neg
          have hz0 : (2 : ℚ) * (p0.x - l) ≠ 0 := by
            intro hc
            exact h3 (by linarith)
          have hz1 : (2 : ℚ) * (p1.x - l) ≠ 0 := by
            intro hc
            exact h2 (by linarith)
          refine ⟨hz0, hz1, ?_, ?_⟩
          · intro hc
            have hinv : (2 * (p0.x - l))⁻¹ = (2 * (p1.x - l))⁻¹ := by
              have : 1 / (2 * (p0.x - l)) = 1 / (2 * (p1.x - l)) := by linarith
              simpa [one_div] using this
            have : (2 : ℚ) * (p0.x - l) = 2 * (p1.x - l) := inv_injective hinv
            exact h1 (by linarith)
          · intro hc
            exact h3 (by linarith)

theorem intersection_branches_amended_w :
    (intersection (fun q => q) ⟨0, 0⟩ ⟨0, 4⟩ 1).y = 2 ∧
    interDivZero ⟨0, 0⟩ ⟨0, 4⟩ 1 = false := by
  have h := intersection_branches_amended (fun q => q) ⟨0, 0⟩ ⟨0, 4⟩ 1
  constructor
  · have h0 := h.1 rfl
    rw [h0]
    norm_num
  · refine h.2.2.2.2 ?_
    intro hc
    exact absurd hc.1 (by norm_num)

/-- C2.  The declared `events` queue compares `shared_ptr` addresses: with
two circle events allocated in that order carrying trigger coordinates 5
and 3, `top()` under `std::greater<>` is the first-allocated event (trigger
5), not the minimum-trigger event (trigger 3) that the unused
`EventComparator` would select. -/
theorem events_queue_orders_by_address_not_x :
    queueTop sharedPtrGreater [(0, 5), (1, 3)] = some (0, 5) ∧
    queueTop (fun a b => EventComparator a.2 b.2) [(0, 5), (1, 3)] = some (1, 3) ∧
    (5 : ℚ) ≠ 3 := by
  refine ⟨?_, ?_, by norm_num⟩
  · simp only [queueTop, List.foldl, sharedPtrGreater]
    norm_num
  · simp only [queueTop, List.foldl, EventComparator]
    norm_num

/-- C1.  With one site, `compute()` terminates normally and `get_segments()`
is empty; but with zero sites the run crashes: `finish_edges` evaluates
`root->next` with `root == nullptr` (the model's `finish_edges` on an empty
beachline), so the zero-site half of the claim fails on the code. -/
theorem compute_zero_crashes_one_site_ok (sq : ℚ → ℚ) :
    computeRun sq [] = none ∧
    finish_edges sq (applyMargins (initSt [])) = none ∧
    (∀ p : Point, computeRun sq [p] = some []) :=
  ⟨rfl, rfl, fun _ => rfl⟩

/-- C3.  One iteration of the main loop with a site and a circle event both
pending: the circle event is dispatched first exactly when its trigger x is
at most the next site's x (ties favour the circle event); otherwise the
site is dispatched. -/
theorem compute_dispatch_circle_iff_le (sq : ℚ → ℚ) (fuel : Nat) (st : St)
    (eid : Nat) (qrest : List Nat) (p : Point) (prest : List Point) (e : Event)
    (hq : st.queue = eid :: qrest) (hp : st.points = p :: prest)
    (he : st.store.get? eid = some e) :
    (eventFirst st = true ↔ e.x ≤ p.x) ∧
    loop1 sq (fuel + 1) st =
      (if e.x ≤ p.x then
        match process_event sq st with
        | none => none
        | some st2 => loop1 sq fuel st2
       else loop1 sq fuel (process_point sq st)) := by
  have he2 : st.store[eid]? = some e := by
    rw [← List.get?_eq_getElem?]
    exact he
  have hef : eventFirst st = decide (e.x ≤ p.x) := by
    unfold eventFirst
    rw [hq, hp]
    simp [evX, he, he2]
  constructor
  · rw [hef]
    exact decide_eq_true_iff
  · simp only [loop1]
    by_cases hle : e.x ≤ p.x <;> simp [hp, hef, hle]

/-- A concrete state with one pending site of x-coordinate 3 and one queued
circle event of trigger 2. -/
def stC3 : St :=
  { beach := [], store := [⟨2, ⟨0, 0⟩, 0, true⟩], queue := [0],
    points := [⟨3, 0⟩], segs := [], xmin := 0, xmax := 0, ymin := 0,
    ymax := 0, nextArcId := 0 }

theorem compute_dispatch_circle_iff_le_w :
    (eventFirst stC3 = true ↔ (2 : ℚ) ≤ (Point.mk 3 0).x) ∧
    loop1 (fun q => q) 1 stC3 =
      (if (2 : ℚ) ≤ (Point.mk 3 0).x then
        match process_event (fun q => q) stC3 with
        | none => none
        | some st2 => loop1 (fun q => q) 0 st2
       else loop1 (fun q => q) 0 (process_point (fun q => q) stC3)) :=
  compute_dispatch_circle_iff_le (fun q => q) 0 stC3 0 [] ⟨3, 0⟩ []
    ⟨2, ⟨0, 0⟩, 0, true⟩ rfl rfl rfl

/-- C7.  `front_insert` on a non-empty beachline with a point that
intersects no arc: the point becomes a new last arc, and exactly one new
open segment is recorded, shared as the old last arc's `right_segment` and
the new arc's `left_segment`, starting at y = the midpoint of the two
rightmost sites' y-coordinates (and x = the padded box's left edge). -/
theorem front_insert_append_fallback (sq : ℚ → ℚ) (st : St) (p : Point)
    (lastArc : Arc) (hne : st.beach ≠ [])
    (hlast : st.beach.getLast? = some lastArc)
    (hmiss : firstHit sq st.beach p = none) :
    front_insert sq st p = { st with
      beach := st.beach.dropLast ++
        [{ lastArc with rs := some st.segs.length },
         ⟨st.nextArcId, p, none, some st.segs.length, none⟩],
      segs := st.segs ++ [Segment.mkOpen ⟨st.xmin, (p.y + lastArc.site.y) / 2⟩],
      nextArcId := st.nextArcId + 1 } := by
  unfold front_insert
  rcases hbe : st.beach with _ | ⟨a, rest⟩
  · exact absurd hbe hne
  · rw [hbe] at hmiss hlast
    simp only [hmiss, hlast, hbe]

theorem invalidateOld_length (store : List Event) (oe : Option Nat) (x0 : ℚ) :
    (invalidateOld store oe x0).length = store.length := by
  rcases oe with _ | eid
  · rfl
  · unfold invalidateOld
    rcases hg : store.get? eid with _ | e
    · simp only [hg]
    · simp only [hg]
      by_cases hne : e.x ≠ x0
      · rw [if_pos hne, List.length_set]
      · rw [if_neg hne]

theorem invalidateOld_get_of_ne (store : List Event) (eid : Nat) (e : Event)
    (x0 : ℚ) (hge : store.get? eid = some e) (hne : e.x ≠ x0) :
    (invalidateOld store (some eid) x0).get? eid =
      some { e with valid := false } := by
  unfold invalidateOld
  simp only [hge]
  rw [if_pos hne]
  obtain ⟨hlt, _⟩ := List.get?_eq_some.mp hge
  exact List.get?_set_eq_of_lt _ hlt

/-- Shared helper: the invalidation prologue of `check_circle_event` marks a
previously attached event invalid whenever its trigger differs from the
decision coordinate, whatever the rest of the call does. -/
theorem cce_invalidates (sq : ℚ → ℚ) (st : St) (k : Nat) (x0 : ℚ)
    (arc : Arc) (eid : Nat) (e : Event) (hk : st.beach.get? k = some arc)
    (hae : arc.event = some eid) (hge : st.store.get? eid = some e)
    (hne : e.x ≠ x0) :
    (check_circle_event sq st k x0).1.store.get? eid =
      some { e with valid := false } := by
  have hstore1 : (invalidateOld st.store arc.event x0).get? eid =
      some { e with valid := false } := by
    rw [hae]
    exact invalidateOld_get_of_ne _ _ _ _ hge hne
  obtain ⟨hlt, _⟩ := List.get?_eq_some.mp hge
  have hlen : eid < (invalidateOld st.store arc.event x0).length := by
    rw [invalidateOld_length]
    exact hlt
  rcases hprev : prevSiteAt st.beach k with _ | a0 <;>
    rcases hnext : nextSiteAt st.beach k with _ | c0 <;>
      simp only [check_circle_event, hk, hprev, hnext]
  · exact hstore1
  · exact hstore1
  · exact hstore1
  · rcases hcir : circle sq a0 arc.site c0 with _ | ⟨x, o⟩
    · simp only [hcir]
      exact hstore1
    · simp only [hcir]
      by_cases hx : x > x0
      · rw [if_pos hx]
        rw [List.get?_append hlen]
        exact hstore1
      · rw [if_neg hx]
        exact hstore1

/-- C5.  The contract of `check_circle_event i x0`: a previously attached
event whose trigger differs from `x0` is invalidated and the arc's event
reference is cleared; with a missing neighbour nothing is scheduled and
`false` is returned; with both neighbours present an event is scheduled on
the queue, attached to the arc, and `true` returned exactly when `circle`
succeeds with a trigger strictly beyond `x0`. -/
theorem check_circle_event_contract (sq : ℚ → ℚ) (st : St) (k : Nat)
    (x0 : ℚ) (arc : Arc) (hk : st.beach.get? k = some arc) :
    (∀ eid e, arc.event = some eid → st.store.get? eid = some e → e.x ≠ x0 →
      (check_circle_event sq st k x0).1.store.get? eid =
        some { e with valid := false }) ∧
    ((check_circle_event sq st k x0).2 = false →
      (check_circle_event sq st k x0).1.beach.get? k =
        some { arc with event := none } ∧
      (check_circle_event sq st k x0).1.queue = st.queue) ∧
    ((prevSiteAt st.beach k = none ∨ nextSiteAt st.beach k = none) →
      (check_circle_event sq st k x0).2 = false) ∧
    (∀ a c, prevSiteAt st.beach k = some a → nextSiteAt st.beach k = some c →
      ((check_circle_event sq st k x0).2 = true ↔
        ∃ x o, circle sq a arc.site c = some (x, o) ∧ x0 < x) ∧
      ((check_circle_event sq st k x0).2 = true →
        (check_circle_event sq st k x0).1.queue =
          st.queue ++ [st.store.length] ∧
        (check_circle_event sq st k x0).1.beach.get? k =
          some { arc with event := some st.store.length })) := by
  obtain ⟨hklt, _⟩ := List.get?_eq_some.mp hk
  have hbeach1 : (st.beach.set k { arc with event := none }).get? k =
      some { arc with event := none } := List.get?_set_eq_of_lt _ hklt
  refine ⟨fun eid e hae hge hne => cce_invalidates sq st k x0 arc eid e hk hae hge hne,
    ?_, ?_, ?_⟩
  · intro hres
    rcases hprev : prevSiteAt st.beach k with _ | a0 <;>
      rcases hnext : nextSiteAt st.beach k with _ | c0 <;>
        simp only [check_circle_event, hk, hprev, hnext]
    · exact ⟨hbeach1, by trivial⟩
    · exact ⟨hbeach1, by trivial⟩
    · exact ⟨hbeach1, by trivial⟩
    · rcases hcir : circle sq a0 arc.site c0 with _ | ⟨x, o⟩
      · simp only [hcir]
        exact ⟨hbeach1, by trivial⟩
      · simp only [hcir]
        by_cases hx : x > x0
        · exact absurd hres (by
            simp only [check_circle_event, hk, hprev, hnext, hcir, if_pos hx]
            simp)
        · rw [if_neg hx]
          exact ⟨hbeach1, by trivial⟩
  · intro hor
    rcases hprev : prevSiteAt st.beach k with _ | a0 <;>
      rcases hnext : nextSiteAt st.beach k with _ | c0 <;>
        simp only [check_circle_event, hk, hprev, hnext] <;>
          try rfl
    rcases hor with h | h
    · rw [hprev] at h
      cases h
    · rw [hnext] at h
      cases h
  · intro a c hprev hnext
    simp only [check_circle_event, hk, hprev, hnext]
    rcases hcir : circle sq a arc.site c with _ | ⟨x, o⟩
    · simp only [hcir]
      constructor
      · constructor
        · intro h
          cases h
        · intro h
          obtain ⟨x1, o1, hcc, _⟩ := h
          cases hcc
      · intro h
        cases h
    · simp only [hcir]
      by_cases hx : x > x0
      · rw [if_pos hx]
        refine ⟨⟨fun _ => ⟨x, o, rfl, hx⟩, fun _ => rfl⟩, fun _ => ⟨?_, ?_⟩⟩
        · rw [invalidateOld_length]
        · have hlt2 : k < (st.beach.set k { arc with event := none }).length := by
            rw [List.length_set]
            exact hklt
          rw [invalidateOld_length]
          exact List.get?_set_eq_of_lt _ hlt2
      · rw [if_neg hx]
        constructor
        · constructor
          · intro h
            cases h
          · intro h
            obtain ⟨x2, o2, hcc, hx2⟩ := h
            simp only [Option.some.injEq, Prod.mk.injEq] at hcc
            obtain ⟨hx3, _⟩ := hcc
            subst hx3
            exact absurd hx2 hx
        · intro h
          cases h

/-- A three-arc beachline over the sites (0,0), (1,1), (2,0); the middle
arc carries an attached, still-valid event (store index 0) whose trigger is
7. -/
def stInv : St :=
  { beach := [⟨0, ⟨0, 0⟩, none, none, none⟩, ⟨1, ⟨1, 1⟩, some 0, none, none⟩,
      ⟨2, ⟨2, 0⟩, none, none, none⟩],
    store := [⟨7, ⟨5, 5⟩, 1, true⟩], queue := [0], points := [], segs := [],
    xmin := 0, xmax := 0, ymin := 0, ymax := 0, nextArcId := 3 }

theorem check_circle_event_contract_w :
    (check_circle_event (fun q => q) stInv 1 0).1.store.get? 0 =
      some ⟨7, ⟨5, 5⟩, 1, false⟩ :=
  (check_circle_event_contract (fun q => q) stInv 1 0
      ⟨1, ⟨1, 1⟩, some 0, none, none⟩ rfl).1 0 ⟨7, ⟨5, 5⟩, 1, true⟩
    rfl rfl (by norm_num)

/-- The same beachline, but the middle arc's attached valid event has
trigger exactly 0 — the decision coordinate a later
`check_circle_event(arc, 0)` call will use. -/
def stC9 : St :=
  { beach := [⟨0, ⟨0, 0⟩, none, none, none⟩, ⟨1, ⟨1, 1⟩, some 0, none, none⟩,
      ⟨2, ⟨2, 0⟩, none, none, none⟩],
    store := [⟨0, ⟨5, 5⟩, 1, true⟩], queue := [0], points := [], segs := [],
    xmin := 0, xmax := 0, ymin := 0, ymax := 0, nextArcId := 3 }

/-- C9 counterexample.  `check_circle_event` on the middle arc with decision
coordinate 0 attaches a fresh event (store index 1, returned `true`), yet
the previously attached event (store index 0) keeps `valid = true`, stays on
the queue and still carries the arc's id as its back reference: the arc now
has two valid scheduled events that can fire for it, because the prologue
only invalidates an old event whose trigger differs from the decision
coordinate. -/
theorem stale_equal_x_event_stays_valid_cex :
    (check_circle_event (fun q => q) stC9 1 0).2 = true ∧
    (check_circle_event (fun q => q) stC9 1 0).1.store.get? 0 =
      some ⟨0, ⟨5, 5⟩, 1, true⟩ ∧
    (check_circle_event (fun q => q) stC9 1 0).1.queue = [0, 1] ∧
    ((check_circle_event (fun q => q) stC9 1 0).1.beach.get? 1).map Arc.event =
      some (some 1) := by
  have hcir : circle (fun q => q) ⟨0, 0⟩ ⟨1, 1⟩ ⟨2, 0⟩ = some (2, ⟨1, 0⟩) := by
    norm_num [circle, crossB, circleG]
  have hred : check_circle_event (fun q => q) stC9 1 0 =
      ({ stC9 with
          beach := (stC9.beach.set 1 ⟨1, ⟨1, 1⟩, none, none, none⟩).set 1
            ⟨1, ⟨1, 1⟩, some 1, none, none⟩,
          store := stC9.store ++ [⟨2, ⟨1, 0⟩, 1, true⟩],
          queue := stC9.queue ++ [1] }, true) := by
    simp only [check_circle_event, stC9]
    norm_num [prevSiteAt, nextSiteAt, invalidateOld, hcir]
  rw [hred]
  refine ⟨rfl, ?_, rfl, rfl⟩
  norm_num [stC9, invalidateOld]

/-- C9 amended.  An arc holds at most one attached event reference, and
whenever `check_circle_event` runs, a previously attached event is
invalidated exactly when its trigger x differs from the decision coordinate
`x0`; an old event whose trigger equals `x0` survives with `valid = true`
(the counterexample above), so only differing-trigger predecessors are dead
when a new event is attached. -/
theorem check_circle_event_invalidates_differing (sq : ℚ → ℚ) (st : St)
    (k : Nat) (x0 : ℚ) (arc : Arc) (eid : Nat) (e : Event)
    (hk : st.beach.get? k = some arc) (hae : arc.event = some eid)
    (hge : st.store.get? eid = some e) (hne : e.x ≠ x0) :
    (check_circle_event sq st k x0).1.store.get? eid =
      some { e with valid := false } :=
  cce_invalidates sq st k x0 arc eid e hk hae hge hne

theorem check_circle_event_invalidates_differing_w :
    (check_circle_event (fun q => q) stInv 1 9).1.store.get? 0 =
      some ⟨7, ⟨5, 5⟩, 1, false⟩ :=
  check_circle_event_invalidates_differing (fun q => q) stInv 1 9
    ⟨1, ⟨1, 1⟩, some 0, none, none⟩ 0 ⟨7, ⟨5, 5⟩, 1, true⟩
    rfl rfl rfl (by norm_num)

/-- A one-arc beachline over the site (0,0), with a padded box whose left
edge is at x = -1. -/
def stC7 : St :=
  { beach := [⟨0, ⟨0, 0⟩, none, none, none⟩], store := [], queue := [],
    points := [], segs := [], xmin := -1, xmax := 1, ymin := -1, ymax := 1,
    nextArcId := 1 }

theorem front_insert_append_fallback_w :
    front_insert (fun q => q) stC7 ⟨0, 4⟩ = { stC7 with
      beach := [⟨0, ⟨0, 0⟩, none, none, some 0⟩, ⟨1, ⟨0, 4⟩, none, some 0, none⟩],
      segs := [Segment.mkOpen ⟨-1, 2⟩],
      nextArcId := 2 } := by
  rw [front_insert_append_fallback (fun q => q) stC7 ⟨0, 4⟩
    ⟨0, ⟨0, 0⟩, none, none, none⟩ (by simp [stC7]) rfl rfl]
  norm_num [stC7, Segment.mkOpen]

end VoronoiModel
